import Mathlib

/-!
Verification of the SecureClaw authorization system.

Part 1 embeds the TypeScript plugin sources
(src/plugins/secureclaw/plugin.ts, resource-extractor.ts, config.ts)
as pure Lean functions: the asynchronous hook handler is modelled as a
total function from the guard outcome (how the predicate-claw SDK call
settled) to the hook result, and log/audit emission is modelled as an
explicit effect trace (an Except value paired with the emitted log lines).
JavaScript strings are modelled as Lean strings restricted to the ASCII
fragment the policies use; toLowerCase, slice and split are given
executable models below.

Part 2 models the policy decision engine (pattern matcher, document
model, evaluator) from the specification, because the engine runs as a
separate Rust sidecar whose sources are not part of this repository.
-/

/-- Embedding of the JavaScript substring test (String.prototype.includes)
on character lists: hasSubstr hay needle is true when needle occurs
contiguously inside hay. -/
def hasSubstr (hay needle : List Char) : Bool :=
  match hay with
  | [] => needle.isEmpty
  | _ :: t => needle.isPrefixOf hay || hasSubstr t needle

/-- Embedding of JavaScript toLowerCase restricted to ASCII letters
(every candidate string and sensitive pattern in the source is ASCII). -/
def lowerChar (c : Char) : Char :=
  if 'A' ≤ c && c ≤ 'Z' then Char.ofNat (c.toNat + 32) else c

/-- Embedding of resource.toLowerCase() from resource-extractor.ts. -/
def toLowerAscii (s : String) : String :=
  String.mk (s.data.map lowerChar)

/-- Embedding of JavaScript s.slice(0, n): the first n characters of s. -/
def jsSlice (s : String) (n : Nat) : String :=
  String.mk (s.data.take n)

/-- Embedding of the JavaScript regular-expression character class \s
(whitespace) used by the split in extractBashCommand. -/
def isJsWs (c : Char) : Bool :=
  let n := c.toNat
  n == 32 || (9 ≤ n && n ≤ 13) || n == 160 || n == 0x1680 ||
  (0x2000 ≤ n && n ≤ 0x200A) || n == 0x2028 || n == 0x2029 ||
  n == 0x202F || n == 0x205F || n == 0x3000 || n == 0xFEFF

/-- Worker for splitWs. The accumulator is the field currently being
read (in reverse); none means the last character consumed was part of a
whitespace run, so that a further whitespace character must not emit an
extra field, while the end of input emits one trailing empty field —
exactly the JavaScript semantics of s.split(/\s+/), which yields a
leading empty string when s starts with whitespace and a trailing empty
string when s ends with whitespace. -/
def splitWsGo (acc : Option (List Char)) : List Char → List (List Char)
  | [] => [(acc.getD []).reverse]
  | c :: cs =>
    if isJsWs c then
      match acc with
      | some a => a.reverse :: splitWsGo none cs
      | none => splitWsGo none cs
    else
      splitWsGo (some (c :: acc.getD [])) cs

/-- Embedding of JavaScript command.split(/\s+/) from extractBashCommand. -/
def splitWs (s : String) : List String :=
  (splitWsGo (some []) s.data).map String.mk

/-- Embedding of the sensitivePatterns array of isSensitiveResource
(resource-extractor.ts lines 169-189), in source order. -/
def sensitivePatterns : List String :=
  ["/.ssh/", "/etc/passwd", "/etc/shadow", "id_rsa", "id_ed25519",
   "credentials", ".env", "secret", "token", "password", "api_key",
   "apikey", "private_key", "privatekey", ".pem", ".key",
   "aws_", "gcp_", "azure_"]

/-- Embedding of isSensitiveResource (resource-extractor.ts lines 167-192):
lowercases the resource and tests each sensitive pattern for substring
containment. -/
def isSensitiveResource (resource : String) : Bool :=
  let lowered := toLowerAscii resource
  sensitivePatterns.any (fun pattern => hasSubstr lowered.data pattern.data)

/-- Embedding of redactResource (resource-extractor.ts lines 197-202). -/
def redactResource (resource : String) : String :=
  if isSensitiveResource resource then "[REDACTED]" else resource

/-- Model of a JavaScript parameter value as seen by the typeof checks of
resource-extractor.ts: either a string or some non-string value. -/
inductive JsVal where
  | str (s : String)
  | other
deriving DecidableEq

/-- Model of the params record as consumed by extractBashCommand: only the
command property is read; none models an absent property. -/
structure BashParams where
  command : Option JsVal
deriving DecidableEq

/-- Embedding of extractBashCommand (resource-extractor.ts lines 127-145):
non-string or missing command gives "bash:unknown"; a command of at most
100 characters is returned verbatim; a longer command is split on
whitespace runs and rebuilt from its first two fields plus "...",
truncated to 100 characters. -/
def extractBashCommand (params : BashParams) : String :=
  match params.command with
  | some (JsVal.str command) =>
    if command.length ≤ 100 then command
    else
      let parts := splitWs command
      let cmdName := parts.getD 0 "cmd"
      let firstArg := parts.getD 1 ""
      jsSlice (cmdName ++ " " ++ firstArg ++ "...") 100
  | _ => "bash:unknown"

/-- Embedding of the Bash case of extractResource
(resource-extractor.ts lines 68-69): it delegates to extractBashCommand. -/
def extractResourceBash (params : BashParams) : String :=
  extractBashCommand params

/-- Embedding of SecureClawConfig (config.ts), restricted to the fields the
hook handlers read. -/
structure SecureClawConfig where
  principal : String
  policyFile : String
  sidecarUrl : String
  failClosed : Bool
  enablePostVerification : Bool
  verbose : Bool
deriving DecidableEq

/-- Embedding of defaultConfig (config.ts). -/
def defaultConfig : SecureClawConfig :=
  { principal := "agent:secureclaw"
    policyFile := "./policies/default.yaml"
    sidecarUrl := "http://127.0.0.1:9120"
    failClosed := true
    enablePostVerification := true
    verbose := false }

/-- Configuration with failClosed switched off, for fail-open scenarios. -/
def failOpenConfig : SecureClawConfig :=
  { defaultConfig with failClosed := false }

/-- Model of how the awaited guardedProvider.guardOrThrow call settles, as
distinguished by the catch clauses of the before_tool_call handler
(plugin.ts lines 175-241): it resolves (ok, covering both an allow
decision and the fail-open null), or rejects with an ActionDeniedError
(whose message may be absent), a SidecarUnavailableError, or any other
error. -/
inductive GuardOutcome where
  | ok
  | errDenied (msg : Option String)
  | errSidecar (msg : String)
  | errOther (msg : String)
deriving DecidableEq

/-- Model of the PluginHookBeforeToolCallResult object returned by the
handler when it blocks. -/
structure HookBlockResult where
  block : Bool
  blockReason : String
deriving DecidableEq

/-- Embedding of the template literal of the ActionDeniedError branch
(plugin.ts line 208). -/
def actionBlockedMsg (reason : String) : String :=
  "[SecureClaw] Action blocked: " ++ reason

/-- Embedding of the fixed block reason of the SidecarUnavailableError and
unknown-error fail-closed branches (plugin.ts lines 222 and 235). -/
def unavailableMsg : String :=
  "[SecureClaw] Authorization service unavailable (fail-closed mode)"

/-- Embedding of the before_tool_call handler (plugin.ts lines 156-244) as
a function of the configuration and the guard outcome; none models the
undefined return value that lets the tool call proceed. Metric updates
and verbose log lines do not affect the returned value and are omitted.
The handler body is one try/catch whose catch always returns, so the
embedding is a total function. -/
def beforeToolCall (cfg : SecureClawConfig) (g : GuardOutcome) :
    Option HookBlockResult :=
  match g with
  | GuardOutcome.ok => none
  | GuardOutcome.errDenied msg =>
    let reason := msg.getD "denied_by_policy"
    some { block := true, blockReason := actionBlockedMsg reason }
  | GuardOutcome.errSidecar _ =>
    some { block := true, blockReason := unavailableMsg }
  | GuardOutcome.errOther _ =>
    if cfg.failClosed then
      some { block := true, blockReason := unavailableMsg }
    else
      none

/-- Embedding of verifyBrowserState (plugin.ts lines 288-307) with its
effect trace made explicit: the first component is how the call settles
(it always returns successfully) and the second is the list of log lines
it emits. The parameters and result are ignored by the source body, which
the polymorphic types make structural. -/
def verifyBrowserState {α β : Type} (toolName : String) (_params : α)
    (_result : β) (verbose : Bool) : Except String Unit × List String :=
  (Except.ok (),
   if verbose then
     ["[SecureClaw] Browser verification: " ++ toolName ++ " (placeholder)"]
   else [])

/-- Embedding of verifyFileWrite (plugin.ts lines 312-331) with its effect
trace made explicit, as for verifyBrowserState. -/
def verifyFileWrite {α β : Type} (toolName : String) (_params : α)
    (_result : β) (verbose : Bool) : Except String Unit × List String :=
  (Except.ok (),
   if verbose then
     ["[SecureClaw] File write verification: " ++ toolName ++ " (placeholder)"]
   else [])

/-- Embedding of auditExporter.exportDecision (plugin.ts lines 79-88): the
body is empty, so the call always returns successfully and emits nothing. -/
def exportDecision {γ : Type} (_event : γ) : Except String Unit × List String :=
  (Except.ok (), [])

/-- Modelled from the spec: the effect variant of a rule (§3); the engine
(the Rust sidecar) is not part of this repository's sources. -/
inductive Effect where
  | allow
  | deny
deriving DecidableEq

/-- Suffixes of a character list, the candidate remainders a star wildcard
can leave behind (the whole list down to the empty list). -/
def suffixes : List Char → List (List Char)
  | [] => [[]]
  | c :: cs => (c :: cs) :: suffixes cs

/-- Modelled from the spec: the Pattern Matcher (§4.1 and the §8 glob test
vectors; the Rust sidecar is not in the sources). A star wildcard matches
any run of characters including the empty run — the §8 vectors (pattern
"*/.aws/*" matching "/home/u/.aws/credentials", pattern "*" matching
every candidate) require the run to cross path separators — consecutive
stars therefore collapse; every other character matches itself; matching
is case-sensitive and anchored to the full candidate; the empty pattern
matches only the empty candidate. -/
def globMatch : List Char → List Char → Bool
  | [], c => c.isEmpty
  | '*' :: ps, c => (suffixes c).any (fun suffix => globMatch ps suffix)
  | p :: ps, c =>
    match c with
    | [] => false
    | c0 :: cs => p == c0 && globMatch ps cs

/-- Modelled from the spec: the Pattern Matcher contract
matches(pattern, candidate) of §4.1 (named patMatches because matches is reserved in Lean). -/
def patMatches (pattern candidate : String) : Bool :=
  globMatch pattern.data candidate.data

/-- Modelled from the spec: a Rule of the Policy Document Model (§3). -/
structure Rule where
  name : String
  effect : Effect
  principals : List String
  actions : List String
  resources : List String
  required_labels : List String
  max_delegation_depth : Option Nat
deriving DecidableEq

/-- Modelled from the spec: a PolicyDocument (§3), an ordered rule list. -/
structure PolicyDocument where
  version : String
  rules : List Rule
deriving DecidableEq

/-- Modelled from the spec: an AuthorizationRequest (§3). -/
structure AuthorizationRequest where
  principal : String
  action : String
  resource : String
  labels : List String
  intent_hash : Option String
deriving DecidableEq

/-- Modelled from the spec: an AuthorizationDecision (§3); the freshly
generated opaque mandate token is modelled by the boolean fact that one
was issued. -/
structure AuthorizationDecision where
  allow : Bool
  reason : String
  matched_rule : Option String
  mandateIssued : Bool
deriving DecidableEq

/-- Modelled from the spec: the structural triple match of §4.3 — the
request's principal, action and resource each match at least one pattern
of the rule's respective list. -/
def ruleStructMatches (r : Rule) (q : AuthorizationRequest) : Bool :=
  r.principals.any (fun p => patMatches p q.principal) &&
  r.actions.any (fun p => patMatches p q.action) &&
  r.resources.any (fun p => patMatches p q.resource)

/-- Modelled from the spec: the label gate of the allow phase (§4.3) —
every required label of the rule is present in the request. -/
def labelsSatisfied (r : Rule) (q : AuthorizationRequest) : Bool :=
  r.required_labels.all (fun l => q.labels.contains l)

/-- Modelled from the spec: the Decision Evaluator (§4.3; the Rust sidecar
is not in the sources). Phase 1 scans document order for a structurally
matching Deny rule (labels ignored); phase 2 scans document order for a
structurally matching Allow rule whose required labels are present;
phase 3 is the default deny. -/
def evaluate (doc : PolicyDocument) (q : AuthorizationRequest) :
    AuthorizationDecision :=
  match doc.rules.find?
      (fun r => r.effect == Effect.deny && ruleStructMatches r q) with
  | some r =>
    { allow := false, reason := "denied_by_policy:" ++ r.name
      matched_rule := some r.name, mandateIssued := false }
  | none =>
    match doc.rules.find?
        (fun r => r.effect == Effect.allow && ruleStructMatches r q &&
          labelsSatisfied r q) with
    | some r =>
      { allow := true, reason := "allowed_by_policy:" ++ r.name
        matched_rule := some r.name, mandateIssued := true }
    | none =>
      { allow := false, reason := "no_matching_allow_rule"
        matched_rule := none, mandateIssued := false }

/-- Containment of a pattern in the lowercased resource: the atomic
condition of claim C6's substring list. -/
abbrev lowContains (r pat : String) : Prop :=
  hasSubstr (toLowerAscii r).data pat.data = true

/-- Sensitivity condition exactly as claim C6 words it: the lowercase form
of r contains at least one of the nineteen listed substrings. -/
abbrev claimSensitive (r : String) : Prop :=
  lowContains r "/.ssh/" ∨ lowContains r "/etc/passwd" ∨
  lowContains r "/etc/shadow" ∨ lowContains r "id_rsa" ∨
  lowContains r "id_ed25519" ∨ lowContains r "credentials" ∨
  lowContains r ".env" ∨ lowContains r "secret" ∨ lowContains r "token" ∨
  lowContains r "password" ∨ lowContains r "api_key" ∨
  lowContains r "apikey" ∨ lowContains r "private_key" ∨
  lowContains r "privatekey" ∨ lowContains r ".pem" ∨ lowContains r ".key" ∨
  lowContains r "aws_" ∨ lowContains r "gcp_" ∨ lowContains r "azure_"

/-- Whitespace-separated words of a string in the sense of claim C10's text:
the non-empty fields of the whitespace split. -/
def wordsOf (s : String) : List String :=
  (splitWs s).filter (fun w => w != "")

/-- Long-command result as claim C10 words it: the first whitespace-separated
word, the second word and "..." truncated to 100 characters. -/
def claimBashTruncation (s : String) : String :=
  jsSlice ((wordsOf s).getD 0 "" ++ " " ++ (wordsOf s).getD 1 "" ++ "...") 100

/-- Concrete 101-character command beginning with a space, used to compare
extractBashCommand with claim C10's wording. -/
def c10cmd : String := String.mk (' ' :: List.replicate 100 'a')

/-- Deny-everything rule used in the C2 witness. -/
def denyRuleC2 : Rule :=
  { name := "deny-all", effect := Effect.deny, principals := ["*"]
    actions := ["*"], resources := ["*"], required_labels := []
    max_delegation_depth := none }

/-- Allow-everything rule used in the C2 witness. -/
def allowRuleC2 : Rule :=
  { name := "allow-all", effect := Effect.allow, principals := ["*"]
    actions := ["*"], resources := ["*"], required_labels := []
    max_delegation_depth := none }

/-- Document for the C2 witness, with the Allow rule placed before the
Deny rule to exercise order-independence of deny precedence. -/
def docC2 : PolicyDocument := { version := "1.0", rules := [allowRuleC2, denyRuleC2] }

/-- Request for the C2 witness. -/
def reqC2 : AuthorizationRequest :=
  { principal := "agent:x", action := "fs.read", resource := "/etc/hosts"
    labels := [], intent_hash := none }

/-- Appending to a string with non-empty data never yields the empty string. -/
theorem strAppendNeEmpty (a b : String) (h : a.data ≠ []) : a ++ b ≠ "" := by
  intro he
  apply h
  have hd : a.data ++ b.data = ([] : List Char) := congrArg String.data he
  exact (List.append_eq_nil.mp hd).1

/-- Restriction of jsSlice: the result never exceeds n characters. -/
theorem jsSlice_length_le (s : String) (n : Nat) : (jsSlice s n).length ≤ n := by
  show (s.data.take n).length ≤ n
  rw [List.length_take]
  exact Nat.min_le_left _ _

/-- The source predicate isSensitiveResource coincides with the explicit
nineteen-substring condition of claim C6. -/
theorem sensitive_iff (r : String) :
    isSensitiveResource r = true ↔ claimSensitive r := by
  simp only [isSensitiveResource, sensitivePatterns, claimSensitive,
    lowContains, List.any_cons, List.any_nil, Bool.or_eq_true]
  tauto

/-- C1: whenever the configuration has failClosed = true and the
guardOrThrow call rejects — with a policy denial, a sidecar-unavailable
error, or any other error — the before_tool_call hook returns a result
with block = true, so the tool call never proceeds. -/
theorem secureclaw_c1_fail_closed_blocks (cfg : SecureClawConfig)
    (g : GuardOutcome) (hfc : cfg.failClosed = true)
    (hg : g ≠ GuardOutcome.ok) :
    ∃ reason, beforeToolCall cfg g =
      some { block := true, blockReason := reason } := by
  cases g with
  | ok => exact absurd rfl hg
  | errDenied msg =>
    exact ⟨actionBlockedMsg (msg.getD "denied_by_policy"), rfl⟩
  | errSidecar m => exact ⟨unavailableMsg, rfl⟩
  | errOther m =>
    refine ⟨unavailableMsg, ?_⟩
    simp [beforeToolCall, hfc]

/-- Witness for C1 at the default configuration and an unknown error. -/
theorem secureclaw_c1_witness :
    defaultConfig.failClosed = true ∧
    GuardOutcome.errOther "network timeout" ≠ GuardOutcome.ok ∧
    ∃ reason,
      beforeToolCall defaultConfig (GuardOutcome.errOther "network timeout") =
        some { block := true, blockReason := reason } :=
  ⟨rfl, by decide,
   secureclaw_c1_fail_closed_blocks defaultConfig _ rfl (by decide)⟩

/-- C2: in any policy document where some Deny rule and some Allow rule
both structurally match a request, evaluate returns allow = false,
regardless of the relative order of the two rules. -/
theorem secureclaw_c2_deny_precedence
    (doc : PolicyDocument) (q : AuthorizationRequest)
    (d : Rule) (hd : d ∈ doc.rules) (hde : d.effect = Effect.deny)
    (hdm : ruleStructMatches d q = true)
    (a : Rule) (_ha : a ∈ doc.rules) (_hae : a.effect = Effect.allow)
    (_ham : ruleStructMatches a q = true) :
    (evaluate doc q).allow = false := by
  have hsome : (doc.rules.find?
      (fun r => r.effect == Effect.deny && ruleStructMatches r q)).isSome := by
    rw [List.find?_isSome]
    refine ⟨d, hd, ?_⟩
    simp [hde, hdm]
  unfold evaluate
  split
  · rfl
  · next hnone =>
      rw [hnone] at hsome
      simp at hsome

/-- Witness for C2: an allow-everything rule placed before a
deny-everything rule still yields a deny. -/
theorem secureclaw_c2_witness :
    denyRuleC2 ∈ docC2.rules ∧ allowRuleC2 ∈ docC2.rules ∧
    (evaluate docC2 reqC2).allow = false :=
  ⟨by decide, by decide,
   secureclaw_c2_deny_precedence docC2 reqC2 denyRuleC2 (by decide) rfl
     (by decide) allowRuleC2 (by decide) rfl (by decide)⟩

/-- C3: a rejection with an ActionDeniedError carrying reason r makes the
hook block with a blockReason containing r, independently of the
failClosed setting; the deny blockReason is never the fixed
sidecar-unavailable message, and a sidecar error always yields exactly
that fixed message — the two outcomes stay structurally distinct. -/
theorem secureclaw_c3_deny_reason_distinct (cfg : SecureClawConfig)
    (r : String) :
    beforeToolCall cfg (GuardOutcome.errDenied (some r)) =
      some { block := true, blockReason := actionBlockedMsg r } ∧
    (∃ pre post : List Char,
      (actionBlockedMsg r).data = pre ++ r.data ++ post) ∧
    actionBlockedMsg r ≠ unavailableMsg ∧
    (∀ m, beforeToolCall cfg (GuardOutcome.errSidecar m) =
      some { block := true, blockReason := unavailableMsg }) := by
  refine ⟨rfl, ⟨"[SecureClaw] Action blocked: ".data, [], ?_⟩, ?_, fun m => rfl⟩
  · simp [actionBlockedMsg]
  · intro h
    have h2 : "[SecureClaw] Action blocked: ".data ++ r.data =
        unavailableMsg.data := by
      simpa [actionBlockedMsg] using congrArg String.data h
    have h3 := congrArg (List.take 15) h2
    rw [List.take_append_of_le_length (by decide)] at h3
    exact absurd h3 (by decide)

/-- C4: the policy document with zero rules yields, for every request, the
default-deny decision with reason "no_matching_allow_rule" and no
matched rule. -/
theorem secureclaw_c4_default_deny (version : String)
    (q : AuthorizationRequest) :
    evaluate { version := version, rules := [] } q =
      { allow := false, reason := "no_matching_allow_rule"
        matched_rule := none, mandateIssued := false } := rfl

/-- C6 counterexample: at the input "[REDACTED]" the claimed equivalence
fails — redactResource returns "[REDACTED]" (the input unchanged) even
though isSensitiveResource is false on it. -/
theorem secureclaw_c6_counterexample :
    ¬ (redactResource "[REDACTED]" = "[REDACTED]" ↔
       isSensitiveResource "[REDACTED]" = true) := by decide

/-- C6 amended: isSensitiveResource is exactly the nineteen-substring
condition on the lowercased resource; redactResource returns "[REDACTED]"
whenever that condition holds and returns the resource unchanged
otherwise; consequently the result equals "[REDACTED]" exactly when the
resource is sensitive or is itself the literal "[REDACTED]". -/
theorem secureclaw_c6_redaction (r : String) :
    (isSensitiveResource r = true ↔ claimSensitive r) ∧
    (claimSensitive r → redactResource r = "[REDACTED]") ∧
    (¬ claimSensitive r → redactResource r = r) ∧
    (redactResource r = "[REDACTED]" ↔ (claimSensitive r ∨ r = "[REDACTED]")) := by
  have hiff := sensitive_iff r
  by_cases h : isSensitiveResource r = true
  · have hc : claimSensitive r := hiff.mp h
    refine ⟨hiff, fun _ => ?_, fun hn => absurd hc hn, ?_⟩
    · simp [redactResource, h]
    · have hr : redactResource r = "[REDACTED]" := by simp [redactResource, h]
      rw [hr]
      exact ⟨fun _ => Or.inl hc, fun _ => rfl⟩
  · have hc : ¬ claimSensitive r := fun c => h (hiff.mpr c)
    have hb : isSensitiveResource r = false := by
      revert h
      cases isSensitiveResource r <;> simp
    refine ⟨hiff, fun c => absurd c hc, fun _ => ?_, ?_⟩
    · simp [redactResource, hb]
    · simp only [redactResource, hb, Bool.false_eq_true, if_false]
      constructor
      · intro h1
        exact Or.inr h1
      · intro h1
        cases h1 with
        | inl c => exact absurd c hc
        | inr hh => exact hh

/-- Witness for C6 at a sensitive resource path. -/
theorem secureclaw_c6_witness :
    claimSensitive "/home/u/.ssh/config" ∧
    redactResource "/home/u/.ssh/config" = "[REDACTED]" :=
  ⟨by decide, (secureclaw_c6_redaction "/home/u/.ssh/config").2.1 (by decide)⟩

/-- C7: verifyBrowserState, verifyFileWrite and exportDecision always
return successfully, and apart from the optional verbose log line they
produce no effect — with verbose off no log line is emitted at all, and
exportDecision never emits anything — so audit emission and
post-verification cannot change, delay, or fail the authorization
outcome returned by the hooks. -/
theorem secureclaw_c7_noop_verification {α β γ : Type} (toolName : String)
    (params : α) (result : β) (event : γ) (verbose : Bool) :
    (verifyBrowserState toolName params result verbose).1 = Except.ok () ∧
    (verifyFileWrite toolName params result verbose).1 = Except.ok () ∧
    exportDecision event = (Except.ok (), ([] : List String)) ∧
    (verbose = false →
      (verifyBrowserState toolName params result verbose).2 = [] ∧
      (verifyFileWrite toolName params result verbose).2 = []) := by
  refine ⟨rfl, rfl, rfl, fun h => ?_⟩
  subst h
  exact ⟨rfl, rfl⟩

/-- Witness for C7 at concrete inputs with verbose off. -/
theorem secureclaw_c7_witness :
    (false = false) ∧
    (verifyBrowserState "computer-use:click" () () false).2 = [] ∧
    (verifyFileWrite "Write" () () false).2 = [] :=
  ⟨rfl,
   ((secureclaw_c7_noop_verification "computer-use:click" () () () false).2.2.2
     rfl).1,
   ((secureclaw_c7_noop_verification "Write" () () () false).2.2.2 rfl).2⟩

/-- C8: a SidecarUnavailableError rejection makes the hook block even when
failClosed is false, and the fail-open path (returning none so the tool
call proceeds) is taken only when the error is neither an
ActionDeniedError nor a SidecarUnavailableError and failClosed is off. -/
theorem secureclaw_c8_sidecar_always_blocks (cfg : SecureClawConfig)
    (m : String) :
    beforeToolCall cfg (GuardOutcome.errSidecar m) =
      some { block := true, blockReason := unavailableMsg } ∧
    (∀ g : GuardOutcome, g ≠ GuardOutcome.ok →
      beforeToolCall cfg g = none →
      ∃ m2, g = GuardOutcome.errOther m2 ∧ cfg.failClosed = false) := by
  refine ⟨rfl, ?_⟩
  intro g hg hnone
  cases g with
  | ok => exact absurd rfl hg
  | errDenied msg => simp [beforeToolCall] at hnone
  | errSidecar m2 => simp [beforeToolCall] at hnone
  | errOther m2 =>
    cases h : cfg.failClosed with
    | false => exact ⟨m2, rfl, rfl⟩
    | true =>
      rw [beforeToolCall] at hnone
      simp [h] at hnone

/-- Witness for C8 with failClosed off: the sidecar error still blocks,
and only the unknown-error outcome takes the fail-open path. -/
theorem secureclaw_c8_witness :
    beforeToolCall failOpenConfig (GuardOutcome.errSidecar "connection refused") =
      some { block := true, blockReason := unavailableMsg } ∧
    ∃ m2, GuardOutcome.errOther "boom" = GuardOutcome.errOther m2 ∧
      failOpenConfig.failClosed = false :=
  ⟨(secureclaw_c8_sidecar_always_blocks failOpenConfig "connection refused").1,
   (secureclaw_c8_sidecar_always_blocks failOpenConfig "connection refused").2
     (GuardOutcome.errOther "boom") (by decide) rfl⟩

/-- C9: for every configuration and guard outcome the before_tool_call
hook returns either none (the tool call proceeds) or a block = true
result whose blockReason is a non-empty string beginning with
"[SecureClaw]"; it never returns block = false (the embedding is a total
function, so the handler never rejects). -/
theorem secureclaw_c9_result_shape (cfg : SecureClawConfig)
    (g : GuardOutcome) :
    beforeToolCall cfg g = none ∨
    ∃ s, beforeToolCall cfg g =
        some { block := true, blockReason := "[SecureClaw]" ++ s } ∧
      "[SecureClaw]" ++ s ≠ "" := by
  have hne : ("[SecureClaw]" : String).data ≠ [] := by decide
  have hlit1 : ("[SecureClaw]" : String) ++ " Action blocked: " =
      "[SecureClaw] Action blocked: " := by decide
  have hlit2 : ("[SecureClaw]" : String) ++
      " Authorization service unavailable (fail-closed mode)" =
      unavailableMsg := by decide
  cases g with
  | ok => exact Or.inl rfl
  | errDenied msg =>
    refine Or.inr ⟨" Action blocked: " ++ msg.getD "denied_by_policy", ?_, ?_⟩
    · have hs : ("[SecureClaw]" : String) ++
          (" Action blocked: " ++ msg.getD "denied_by_policy") =
          actionBlockedMsg (msg.getD "denied_by_policy") := by
        rw [← String.append_assoc, hlit1]
        rfl
      rw [hs]
      rfl
    · exact strAppendNeEmpty _ _ hne
  | errSidecar m =>
    refine Or.inr
      ⟨" Authorization service unavailable (fail-closed mode)", ?_, ?_⟩
    · rw [hlit2]
      rfl
    · exact strAppendNeEmpty _ _ hne
  | errOther m =>
    cases h : cfg.failClosed with
    | false =>
      refine Or.inl ?_
      rw [beforeToolCall]
      simp [h]
    | true =>
      refine Or.inr
        ⟨" Authorization service unavailable (fail-closed mode)", ?_, ?_⟩
      · rw [hlit2, beforeToolCall]
        simp [h]
      · exact strAppendNeEmpty _ _ hne

/-- C10 counterexample: for the 101-character command that begins with a
space, the first whitespace-separated word is the run of 100 letters a,
but extractResource for Bash returns a space followed by 99 letters a —
JavaScript split on whitespace runs yields an empty first field for a
command with leading whitespace, so the result is not built from the
first and second words as the claim states. -/
theorem secureclaw_c10_counterexample :
    100 < c10cmd.length ∧
    extractResourceBash { command := some (JsVal.str c10cmd) } =
      String.mk (' ' :: List.replicate 99 'a') ∧
    (wordsOf c10cmd).getD 0 "" = String.mk (List.replicate 100 'a') ∧
    claimBashTruncation c10cmd = String.mk (List.replicate 100 'a') ∧
    extractResourceBash { command := some (JsVal.str c10cmd) } ≠
      claimBashTruncation c10cmd := by decide

/-- C10 amended: extractResource for Bash always returns a string of
length at most 100; a string command of at most 100 characters is
returned verbatim; a missing or non-string command gives "bash:unknown";
a longer command yields the first two fields of the whitespace-run split
(a command beginning with whitespace contributes an empty first field
rather than its first word), joined by a space, followed by "..." and
truncated to 100 characters. -/
theorem secureclaw_c10_bash_resource (params : BashParams) :
    (extractResourceBash params).length ≤ 100 ∧
    (∀ s, params.command = some (JsVal.str s) → s.length ≤ 100 →
      extractResourceBash params = s) ∧
    ((params.command = none ∨ params.command = some JsVal.other) →
      extractResourceBash params = "bash:unknown") ∧
    (∀ s, params.command = some (JsVal.str s) → 100 < s.length →
      extractResourceBash params =
        jsSlice ((splitWs s).getD 0 "cmd" ++ " " ++
          (splitWs s).getD 1 "" ++ "...") 100) := by
  obtain ⟨cmd⟩ := params
  cases cmd with
  | none =>
    refine ⟨by decide, ?_, fun _ => rfl, ?_⟩
    · intro s hs
      exact absurd hs (by simp)
    · intro s hs
      exact absurd hs (by simp)
  | some v =>
    cases v with
    | other =>
      refine ⟨by decide, ?_, fun _ => rfl, ?_⟩
      · intro s hs
        exact absurd hs (by simp)
      · intro s hs
        exact absurd hs (by simp)
    | str s =>
      by_cases hlen : s.length ≤ 100
      · have he : extractResourceBash { command := some (JsVal.str s) } = s := by
          simp [extractResourceBash, extractBashCommand, hlen]
        refine ⟨?_, ?_, ?_, ?_⟩
        · rw [he]
          exact hlen
        · intro s2 hs2 _
          have hss : s = s2 := by
            injection hs2 with h1
            injection h1 with h2
          rw [he, hss]
        · intro hor
          rcases hor with h | h <;> simp at h
        · intro s2 hs2 hgt
          have hss : s = s2 := by
            injection hs2 with h1
            injection h1 with h2
          rw [← hss] at hgt
          exact absurd hlen (by omega)
      · have he : extractResourceBash { command := some (JsVal.str s) } =
            jsSlice ((splitWs s).getD 0 "cmd" ++ " " ++
              (splitWs s).getD 1 "" ++ "...") 100 := by
          simp [extractResourceBash, extractBashCommand, hlen]
        refine ⟨?_, ?_, ?_, ?_⟩
        · rw [he]
          exact jsSlice_length_le _ _
        · intro s2 hs2 hle
          have hss : s = s2 := by
            injection hs2 with h1
            injection h1 with h2
          rw [← hss] at hle
          exact absurd hle hlen
        · intro hor
          rcases hor with h | h <;> simp at h
        · intro s2 hs2 _
          have hss : s = s2 := by
            injection hs2 with h1
            injection h1 with h2
          rw [he, hss]

/-- Witness for C10 at a short command returned verbatim. -/
theorem secureclaw_c10_witness :
    ("echo hi" : String).length ≤ 100 ∧
    extractResourceBash { command := some (JsVal.str "echo hi") } = "echo hi" :=
  ⟨by decide,
   (secureclaw_c10_bash_resource { command := some (JsVal.str "echo hi") }).2.1
     "echo hi" rfl (by decide)⟩
